import Mathlib

/-!
Verification of the correlation/covariance kernel, the regularization loss
suite, and the relabeled-subset sampler of `src/ml/lib/ml.py`
(kang-2023-examples-concepts).

Numbers are modelled by exact rationals; tensors with two axes by
`Matrix (Fin F) (Fin N) ℚ` with the last (sample) axis of length `N`.
The only randomness in the sampler is `torch.randperm`, modelled by an
explicit permutation argument supplied to the construction.
-/

open BigOperators Matrix

/-- Errors raised by the kernel functions: `shapeError` models the
`Exception("input must have at least 2 dimensions")` raised by the `ndim`
guard, `zeroDivisionError` models Python's `ZeroDivisionError` from the
scalar division `1./(N-1)`. -/
inductive MLErr where
  | shapeError : MLErr
  | zeroDivisionError : MLErr
deriving DecidableEq

/-- `torch.mean(X, dim=-1)`: mean of row `i` along the sample axis
(ml.py line 105). -/
def rowMean {F N : ℕ} (X : Matrix (Fin F) (Fin N) ℚ) (i : Fin F) : ℚ :=
  (∑ j, X i j) / (N : ℚ)

/-- `X = X - mean` (ml.py line 106): mean-centering along the sample axis. -/
def centered {F N : ℕ} (X : Matrix (Fin F) (Fin N) ℚ) : Matrix (Fin F) (Fin N) ℚ :=
  fun i j => X i j - rowMean X i

/-- `torch.var(X, dim=-1)` (unbiased, as ml.py line 126 uses it): sum of
squared deviations from the row mean, divided by `N - 1`. -/
def tvar {F N : ℕ} (X : Matrix (Fin F) (Fin N) ℚ) (i : Fin F) : ℚ :=
  (∑ j, (X i j - rowMean X i) ^ 2) / ((N : ℚ) - 1)

/-- `cov_matrix` (ml.py lines 101-107) on a 2-D input: mean-center along the
sample axis, then `1./(N-1) * X @ X.transpose(-1, -2)`.  Leading batch axes
of the torch version act slice-wise and are not modelled. -/
def cov_matrix {F N : ℕ} (X : Matrix (Fin F) (Fin N) ℚ) : Matrix (Fin F) (Fin F) ℚ :=
  (1 / ((N : ℚ) - 1)) • (centered X * (centered X)ᵀ)

/-- The `if X.ndim < 2` guard at ml.py lines 102-103 and 121-122. -/
def ndimGuard (ndim : ℕ) : Except MLErr Unit :=
  if ndim < 2 then Except.error MLErr.shapeError else Except.ok ()

/-- `cov_matrix` on a 2-D input together with its failure behaviour: the
`ndim` guard passes (`ndim = 2`), and the Python scalar division `1./(N-1)`
at line 107 raises `ZeroDivisionError` exactly when `N = 1`. -/
def cov_matrixE {F N : ℕ} (X : Matrix (Fin F) (Fin N) ℚ) :
    Except MLErr (Matrix (Fin F) (Fin F) ℚ) :=
  if N = 1 then Except.error MLErr.zeroDivisionError else Except.ok (cov_matrix X)

/-- `corr_matrix_sq` (ml.py lines 120-130): center, per-row unbiased variance
plus `eps`, squared Gram matrix divided entrywise by the outer product of the
variances, scaled by `1./(N-1.)**2`. -/
def corr_matrix_sq {F N : ℕ} (X : Matrix (Fin F) (Fin N) ℚ) (eps : ℚ) :
    Matrix (Fin F) (Fin F) ℚ :=
  fun i j => (1 / ((N : ℚ) - 1) ^ 2) *
    (((centered X * (centered X)ᵀ) i j) ^ 2 /
      ((tvar (centered X) i + eps) * (tvar (centered X) j + eps)))

/-- The default value of the `eps` parameter in the source signature
`def corr_matrix_sq(X, eps=0.)` (ml.py line 120). -/
def corr_matrix_sq_default_eps : ℚ := 0

/-- `corr_matrix_sq` with its failure behaviour on a 2-D input: the `ndim`
guard passes, and `1./(N-1.)**2` at line 130 raises `ZeroDivisionError`
exactly when `N = 1`. -/
def corr_matrix_sqE {F N : ℕ} (X : Matrix (Fin F) (Fin N) ℚ) (eps : ℚ) :
    Except MLErr (Matrix (Fin F) (Fin F) ℚ) :=
  if N = 1 then Except.error MLErr.zeroDivisionError
  else Except.ok (corr_matrix_sq X eps)

/-- `cov.diagonal().zero_()` / `corr_sq.diagonal().zero_()`
(ml.py lines 112, 135, 144). -/
def zeroDiag {F : ℕ} (M : Matrix (Fin F) (Fin F) ℚ) : Matrix (Fin F) (Fin F) ℚ :=
  fun i j => if i = j then 0 else M i j

/-- `decov_criterion` (ml.py lines 110-115): covariance of the transposed
activations, diagonal zeroed, then `cov.square().sum()`. -/
def decov_criterion {N F : ℕ} (activations : Matrix (Fin N) (Fin F) ℚ) : ℚ :=
  ∑ i, ∑ j, (zeroDiag (cov_matrix activationsᵀ) i j) ^ 2

/-- `decorr_criterion` (ml.py lines 133-138): squared correlation matrix,
diagonal zeroed, then summed. -/
def decorr_criterion {F N : ℕ} (activations : Matrix (Fin F) (Fin N) ℚ) (eps : ℚ) : ℚ :=
  ∑ i, ∑ j, zeroDiag (corr_matrix_sq activations eps) i j

/-- The default `eps=1e-3` of `decorr_criterion` (ml.py line 133). -/
def decorr_criterion_default_eps : ℚ := 1 / 1000

/-- Python 3 `round(n/2)` for a natural `n`: `n/2` is exactly representable
as a float, so this is round-half-to-even (ml.py line 142). -/
def pyRoundHalf (n : ℕ) : ℕ :=
  if n % 2 = 0 then n / 2
  else if (n / 2) % 2 = 0 then n / 2 else n / 2 + 1

/-- The slice `activations[:, half:]` with `half = int(round(F/2))` taken of
the last axis (ml.py lines 142-143). -/
def sliceFromHalf {R C : ℕ} (X : Matrix (Fin R) (Fin C) ℚ) :
    Matrix (Fin R) (Fin (C - pyRoundHalf C)) ℚ :=
  fun i j => X i ⟨pyRoundHalf C + j.val, by
    have h2 := j.isLt
    have h1 : pyRoundHalf C ≤ C := by
      unfold pyRoundHalf
      split
      · omega
      · split <;> omega
    omega⟩

/-- `halfcorr_criterion` (ml.py lines 141-147): `corr_matrix_sq` of the
second-half slice of the last axis, diagonal zeroed, then summed. -/
def halfcorr_criterion {R C : ℕ} (activations : Matrix (Fin R) (Fin C) ℚ) (eps : ℚ) : ℚ :=
  ∑ i, ∑ j, zeroDiag (corr_matrix_sq (sliceFromHalf activations) eps) i j

/-- The default `eps=1e-3` of `halfcorr_criterion` (ml.py line 141). -/
def halfcorr_criterion_default_eps : ℚ := 1 / 1000

/-- Unbiased sample covariance as the specification states it:
`(1/(N-1)) * X_centered * X_centered^T`, written entrywise. -/
def specCovariance {F N : ℕ} (X : Matrix (Fin F) (Fin N) ℚ) : Matrix (Fin F) (Fin F) ℚ :=
  fun i j => (∑ k, (X i k - rowMean X i) * (X j k - rowMean X j)) / ((N : ℚ) - 1)

/-- Unbiased sample variance of one feature row, as the specification
states it. -/
def specVariance {N : ℕ} (x : Fin N → ℚ) : ℚ :=
  (∑ j, (x j - (∑ k, x k) / (N : ℚ)) ^ 2) / ((N : ℚ) - 1)

/-- Entry `(i, j)` of `correlation_squared` as the specification states it:
`((x_i · x_j)/(N-1))^2 / ((var_i + eps)(var_j + eps))` for centered rows. -/
def specCorrSqEntry {F N : ℕ} (X : Matrix (Fin F) (Fin N) ℚ) (eps : ℚ) (i j : Fin F) : ℚ :=
  ((∑ k, (X i k - rowMean X i) * (X j k - rowMean X j)) / ((N : ℚ) - 1)) ^ 2 /
    ((specVariance (fun t => X i t) + eps) * (specVariance (fun t => X j t) + eps))

/-- `class_size` argument: `'all'` or an integer cap (ml.py line 26). -/
inductive SizeCfg where
  | all : SizeCfg
  | size (k : ℕ) : SizeCfg
deriving DecidableEq

/-- `class_inds` argument: `'all'` or an explicit list of class ids
(ml.py line 26). -/
inductive IndsCfg where
  | all : IndsCfg
  | inds (cs : List ℕ) : IndsCfg
deriving DecidableEq

/-- `target2_config` argument (ml.py lines 27, 55-72).  `invalid` stands for
any value that is none of the recognized shapes, e.g. the string `"bogus"`;
the source treats all such values identically in the final `else` branch. -/
inductive T2Cfg where
  | index : T2Cfg
  | shuffle : T2Cfg
  | none : T2Cfg
  | int (k : ℤ) : T2Cfg
  | invalid : T2Cfg
deriving DecidableEq

/-- Errors `RelabeledSubset.__init__` can raise:
`invalidTarget2Config` is the `raise Exception("target2_config must be ...")`
branch (ml.py lines 70-72); `emptyCat` is the `RuntimeError` torch raises at
`torch.cat(inds_by_class)` (line 47) when the resolved class list is empty;
`zeroMod` is the `RuntimeError` (integer division by zero) torch raises at
`self.targets2 % target2_config` (line 67) when the integer config is `0`. -/
inductive InitError where
  | invalidTarget2Config : InitError
  | emptyCat : InitError
  | zeroMod : InitError
deriving DecidableEq

/-- Observable steps of `RelabeledSubset.__init__`, in source order:
data selection/copying (lines 32-52), secondary-label assignment
(lines 55-69), the invalid-config raise (lines 70-72) or a torch
`RuntimeError` (lines 47, 67). -/
inductive InitEvent where
  | copyData : InitEvent
  | assignTargets2 : InitEvent
  | raiseConfigError : InitEvent
  | raiseRuntimeError : InitEvent
deriving DecidableEq

/-- The event a raised error produces in the trace: the config `Exception`
and the torch `RuntimeError`s are distinct exception classes. -/
def raiseEvent : InitError → InitEvent
  | InitError.invalidTarget2Config => InitEvent.raiseConfigError
  | InitError.emptyCat => InitEvent.raiseRuntimeError
  | InitError.zeroMod => InitEvent.raiseRuntimeError

/-- The base dataset as the sampler consumes it: item images, integer
targets, and the values of `class_to_idx`. -/
structure BaseDataset (α : Type) where
  data : List α
  targets : List ℕ
  class_to_idx : List ℕ

/-- `torch.where(dataset.targets == class_idx)[0]` (ml.py lines 40-41):
the indices holding class `c`, in increasing base-dataset order. -/
def whereEq (targets : List ℕ) (c : ℕ) : List ℕ :=
  (List.range targets.length).filter fun i => decide (targets.getD i (c + 1) = c)

/-- `inds[:class_size]` when a cap is set, identity otherwise
(ml.py lines 43-44). -/
def takeCfg : SizeCfg → List ℕ → List ℕ
  | SizeCfg.all, l => l
  | SizeCfg.size k, l => l.take k

/-- Indexing a list by a permutation, as `l[perm]` / `index_select` do
(ml.py lines 48-52). -/
def applyPerm {α : Type} [Inhabited α] (p : List ℕ) (l : List α) : List α :=
  p.map fun i => l.getD i default

/-- Resolution of `class_inds == 'all'` to `dataset.class_to_idx.values()`
(ml.py lines 37-38). -/
def resolveClassInds {α : Type} (ds : BaseDataset α) : IndsCfg → List ℕ
  | IndsCfg.all => ds.class_to_idx
  | IndsCfg.inds cs => cs

/-- `subset_inds = torch.cat(inds_by_class)` before the random permutation
(ml.py lines 40-47). -/
def rawSubsetInds {α : Type} (ds : BaseDataset α) (cs : SizeCfg) (ci : IndsCfg) : List ℕ :=
  ((resolveClassInds ds ci).map fun c => takeCfg cs (whereEq ds.targets c)).flatten

/-- The data computed by the selection step of `RelabeledSubset.__init__`
(ml.py lines 32-52), with the `randperm` result passed in as `selPerm`.
Returns the subset data and targets; the `torch.cat([])` failure of this
step is modelled by `selectionStepE`, which wraps this function. -/
def selectionStep {α : Type} [Inhabited α] (ds : BaseDataset α) (cs : SizeCfg)
    (ci : IndsCfg) (selPerm : List ℕ) : List α × List ℕ :=
  match ci, cs with
  | IndsCfg.all, SizeCfg.all => (ds.data, ds.targets)
  | ci, cs =>
    let si := applyPerm selPerm (rawSubsetInds ds cs ci)
    (si.map fun i => ds.data.getD i default, si.map fun i => ds.targets.getD i 0)

/-- The data-selection step of `RelabeledSubset.__init__` (ml.py lines
32-52) with its failure path: when the branch at lines 36-52 runs with an
empty resolved class list, `torch.cat(inds_by_class)` at line 47 raises a
`RuntimeError` (a cat of a non-empty list of possibly empty index tensors
succeeds, so the resolved class list being empty is the only failure). -/
def selectionStepE {α : Type} [Inhabited α] (ds : BaseDataset α) (cs : SizeCfg)
    (ci : IndsCfg) (selPerm : List ℕ) : Except InitError (List α × List ℕ) :=
  match ci, cs with
  | IndsCfg.all, SizeCfg.all => Except.ok (ds.data, ds.targets)
  | ci, cs =>
    if resolveClassInds ds ci = [] then Except.error InitError.emptyCat
    else Except.ok (selectionStep ds cs ci selPerm)

/-- The secondary-label dispatch of `RelabeledSubset.__init__` (ml.py lines
55-72), with the `randperm` result passed in as `t2Perm`.  `Int.fmod` is
floor-mod, matching the sign convention of the Python / torch `%` for a
non-zero divisor; an integer config of `0` makes `self.targets2 % 0` at
line 67 raise a division-by-zero `RuntimeError`. -/
def target2Step (targets : List ℕ) (cfg : T2Cfg) (t2Perm : List ℕ) :
    Except InitError (Option (List ℤ)) :=
  match cfg with
  | T2Cfg.index =>
      Except.ok (some ((List.range targets.length).map fun (i : ℕ) => (i : ℤ)))
  | T2Cfg.shuffle =>
      Except.ok (some (applyPerm t2Perm (targets.map fun (t : ℕ) => (t : ℤ))))
  | T2Cfg.int k =>
      if k = 0 then Except.error InitError.zeroMod
      else Except.ok (some (applyPerm t2Perm
        ((List.range targets.length).map fun (i : ℕ) => Int.fmod (i : ℤ) k)))
  | T2Cfg.none => Except.ok Option.none
  | T2Cfg.invalid => Except.error InitError.invalidTarget2Config

/-- The fields a fully constructed `RelabeledSubset` owns. -/
structure SubsetState (α : Type) where
  data : List α
  targets : List ℕ
  targets2 : Option (List ℤ)

/-- Result of running `RelabeledSubset.__init__`: the ordered list of
observable events and either the constructed state or the raised error. -/
structure InitResult (α : Type) where
  events : List InitEvent
  state : Except InitError (SubsetState α)

/-- `RelabeledSubset.__init__` (ml.py lines 26-75): the data selection runs
first (lines 32-52, possibly failing at `torch.cat([])` before any copy),
then the `target2_config` dispatch (lines 55-72), whose failures are raised
only after the selection has copied data. -/
def relabeledSubset_init {α : Type} [Inhabited α] (ds : BaseDataset α) (cs : SizeCfg)
    (ci : IndsCfg) (t2cfg : T2Cfg) (selPerm t2Perm : List ℕ) : InitResult α :=
  match selectionStepE ds cs ci selPerm with
  | Except.error e => ⟨[raiseEvent e], Except.error e⟩
  | Except.ok dt =>
      match target2Step dt.2 t2cfg t2Perm with
      | Except.ok t2 =>
          ⟨[InitEvent.copyData, InitEvent.assignTargets2],
            Except.ok ⟨dt.1, dt.2, t2⟩⟩
      | Except.error e =>
          ⟨[InitEvent.copyData, raiseEvent e], Except.error e⟩

/-- Return value of `RelabeledSubset.__getitem__`: a 2-tuple or a 3-tuple
(ml.py lines 90, 96). -/
inductive ItemOut (α : Type) where
  | pair (img : α) (target : ℤ) : ItemOut α
  | triple (img : α) (target target2 : ℤ) : ItemOut α
deriving DecidableEq

/-- `RelabeledSubset.__getitem__` (ml.py lines 80-96).  The optional
`transform` / `target_transform` model the Python truthiness checks on the
stored callables. -/
def relabeledSubset_getitem {α : Type} [Inhabited α] (s : SubsetState α)
    (transform : Option (α → α)) (target_transform : Option (ℤ → ℤ))
    (idx : ℕ) : ItemOut α :=
  let img0 := s.data.getD idx default
  let t0 : ℤ := (s.targets.getD idx 0 : ℕ)
  let img := match transform with
    | some f => f img0
    | Option.none => img0
  let target := match target_transform with
    | some f => f t0
    | Option.none => t0
  match s.targets2 with
  | Option.none => ItemOut.pair img target
  | some t2s =>
      let t20 := t2s.getD idx 0
      let target2 := match target_transform with
        | some f => f t20
        | Option.none => t20
      ItemOut.triple img target target2

theorem cov_matrix_apply {F N : ℕ} (X : Matrix (Fin F) (Fin N) ℚ) (i j : Fin F) :
    cov_matrix X i j =
      (∑ k, (X i k - rowMean X i) * (X j k - rowMean X j)) / ((N : ℚ) - 1) := by
  simp only [cov_matrix, Matrix.smul_apply, Matrix.mul_apply, Matrix.transpose_apply,
    centered, smul_eq_mul]
  rw [one_div, inv_mul_eq_div]

/-- Claim C1: for a 2-D input with sample-axis length `N ≥ 2`, `cov_matrix X` equals
the unbiased sample covariance `(1/(N-1)) · X_centered · X_centered^T`; it is
symmetric, and diagonal entry `i` is the unbiased sample variance of feature
row `i`. -/
theorem cov_matrix_unbiased_symm_diag {F N : ℕ} (X : Matrix (Fin F) (Fin N) ℚ)
    (hN : 2 ≤ N) :
    cov_matrix X = specCovariance X ∧
    (cov_matrix X)ᵀ = cov_matrix X ∧
    ∀ i, cov_matrix X i i = specVariance (fun j => X i j) := by
  refine ⟨?_, ?_, ?_⟩
  · ext i j
    rw [cov_matrix_apply]
    rfl
  · ext i j
    rw [Matrix.transpose_apply, cov_matrix_apply, cov_matrix_apply]
    congr 1
    exact Finset.sum_congr rfl fun k _ => mul_comm _ _
  · intro i
    rw [cov_matrix_apply]
    unfold specVariance rowMean
    congr 1
    exact Finset.sum_congr rfl fun k _ => (sq ((fun j => X i j) k - _)).symm

/-- Witness for C1 at the concrete input `![![1, 3]]`. -/
theorem cov_matrix_unbiased_symm_diag_witness :
    2 ≤ 2 ∧
    (cov_matrix (![![1, 3]] : Matrix (Fin 1) (Fin 2) ℚ) = specCovariance ![![1, 3]] ∧
      (cov_matrix (![![1, 3]] : Matrix (Fin 1) (Fin 2) ℚ))ᵀ = cov_matrix ![![1, 3]] ∧
      ∀ i, cov_matrix (![![1, 3]] : Matrix (Fin 1) (Fin 2) ℚ) i i =
        specVariance (fun j => (![![1, 3]] : Matrix (Fin 1) (Fin 2) ℚ) i j)) :=
  ⟨by norm_num, cov_matrix_unbiased_symm_diag ![![1, 3]] (by norm_num)⟩

theorem rowMean_centered {F N : ℕ} (X : Matrix (Fin F) (Fin N) ℚ) (i : Fin F) :
    rowMean (centered X) i = 0 := by
  rcases Nat.eq_zero_or_pos N with h | h
  · subst h
    simp [rowMean]
  · have hN : (N : ℚ) ≠ 0 := Nat.cast_ne_zero.mpr (Nat.pos_iff_ne_zero.mp h)
    simp only [rowMean, centered, Finset.sum_sub_distrib, Finset.sum_const,
      Finset.card_univ, Fintype.card_fin, nsmul_eq_mul]
    rw [mul_comm ((N : ℚ)) _, div_mul_cancel₀ _ hN, sub_self, zero_div]

theorem tvar_centered {F N : ℕ} (X : Matrix (Fin F) (Fin N) ℚ) (i : Fin F) :
    tvar (centered X) i = specVariance (fun t => X i t) := by
  unfold tvar specVariance
  congr 1
  apply Finset.sum_congr rfl
  intro j _
  rw [rowMean_centered]
  simp [centered, rowMean]

theorem tvar_nonneg {F N : ℕ} (X : Matrix (Fin F) (Fin N) ℚ) (i : Fin F) :
    0 ≤ tvar X i := by
  unfold tvar
  rcases Nat.eq_zero_or_pos N with h | h
  · subst h
    simp
  · apply div_nonneg (Finset.sum_nonneg fun j _ => sq_nonneg _)
    have h1 : (1 : ℚ) ≤ (N : ℚ) := by exact_mod_cast h
    linarith

theorem corr_matrix_sq_apply {F N : ℕ} (X : Matrix (Fin F) (Fin N) ℚ) (eps : ℚ)
    (i j : Fin F) :
    corr_matrix_sq X eps i j =
      (∑ k, centered X i k * centered X j k) ^ 2 /
        (((N : ℚ) - 1) ^ 2 *
          ((tvar (centered X) i + eps) * (tvar (centered X) j + eps))) := by
  simp only [corr_matrix_sq, Matrix.mul_apply, Matrix.transpose_apply]
  rw [div_mul_div_comm, one_mul]

/-- Claim C2, amended: entry `(i,j)` of `corr_matrix_sq X eps` equals
`((x_i·x_j)/(N-1))^2 / ((var_i+eps)(var_j+eps))` for centered rows and
unbiased variances; but the default `eps` of `corr_matrix_sq` itself is `0`
(the `1e-3` default belongs to `decorr_criterion` / `halfcorr_criterion`). -/
theorem corr_matrix_sq_entry_and_defaults {F N : ℕ} (X : Matrix (Fin F) (Fin N) ℚ)
    (eps : ℚ) (heps : 0 ≤ eps) :
    (∀ i j, corr_matrix_sq X eps i j = specCorrSqEntry X eps i j) ∧
    corr_matrix_sq_default_eps = 0 ∧
    decorr_criterion_default_eps = 1 / 1000 ∧
    halfcorr_criterion_default_eps = 1 / 1000 := by
  refine ⟨fun i j => ?_, rfl, rfl, rfl⟩
  rw [corr_matrix_sq_apply]
  unfold specCorrSqEntry
  rw [div_pow, div_div, ← tvar_centered X i, ← tvar_centered X j]
  rfl

/-- Witness for C2's amended theorem at `![![0, 1]]`, `eps = 0`. -/
theorem corr_matrix_sq_entry_and_defaults_witness :
    (0 : ℚ) ≤ 0 ∧
    ((∀ i j, corr_matrix_sq (![![0, 1]] : Matrix (Fin 1) (Fin 2) ℚ) 0 i j =
        specCorrSqEntry ![![0, 1]] 0 i j) ∧
      corr_matrix_sq_default_eps = 0 ∧
      decorr_criterion_default_eps = 1 / 1000 ∧
      halfcorr_criterion_default_eps = 1 / 1000) :=
  ⟨le_refl 0, corr_matrix_sq_entry_and_defaults ![![0, 1]] 0 (le_refl 0)⟩

/-- Claim C2, counterexample: the source default of `corr_matrix_sq` is `eps = 0`,
not `1e-3`: on `![![0, 1]]` the omitted-`eps` call yields entry `1`, while
`eps = 1e-3` would yield a value different from `1`. -/
theorem corr_matrix_sq_default_eps_cex :
    corr_matrix_sq_default_eps ≠ 1 / 1000 ∧
    corr_matrix_sq (![![0, 1]] : Matrix (Fin 1) (Fin 2) ℚ)
      corr_matrix_sq_default_eps 0 0 = 1 ∧
    corr_matrix_sq (![![0, 1]] : Matrix (Fin 1) (Fin 2) ℚ) (1 / 1000) 0 0 ≠ 1 := by
  refine ⟨by norm_num [corr_matrix_sq_default_eps], ?_, ?_⟩ <;>
  · rw [corr_matrix_sq_apply]
    norm_num [centered, rowMean, tvar, Fin.sum_univ_two, corr_matrix_sq_default_eps]

/-- Claim C3, amended: the kernel functions raise `ShapeError` exactly when the
input has fewer than 2 axes; the sample-axis length is not validated.  On a
2-D input they never raise `ShapeError`; sample length `N = 1` raises
`ZeroDivisionError` instead, and any other length returns a value. -/
theorem kernel_shape_error_iff {F N : ℕ} (X : Matrix (Fin F) (Fin N) ℚ) (eps : ℚ) :
    ndimGuard 1 = Except.error MLErr.shapeError ∧
    ndimGuard 2 = Except.ok () ∧
    cov_matrixE X ≠ Except.error MLErr.shapeError ∧
    corr_matrix_sqE X eps ≠ Except.error MLErr.shapeError ∧
    (cov_matrixE X = Except.error MLErr.zeroDivisionError ↔ N = 1) ∧
    (corr_matrix_sqE X eps = Except.error MLErr.zeroDivisionError ↔ N = 1) := by
  unfold ndimGuard cov_matrixE corr_matrix_sqE
  by_cases h : N = 1 <;> simp [h]

/-- Claim C3, counterexample: a 2-D input whose sample axis has length `0` makes
`cov_matrix` return a value, not raise `ShapeError`. -/
theorem cov_matrixE_len0_cex :
    cov_matrixE (0 : Matrix (Fin 2) (Fin 0) ℚ) = Except.ok 0 ∧
    cov_matrixE (0 : Matrix (Fin 2) (Fin 0) ℚ) ≠ Except.error MLErr.shapeError := by
  have h : cov_matrix (0 : Matrix (Fin 2) (Fin 0) ℚ) = 0 := by
    ext i j
    rw [cov_matrix_apply]
    simp
  constructor
  · simp [cov_matrixE, h]
  · simp [cov_matrixE]

/-- Claim C5: `decov_criterion` equals the sum of squared off-diagonal entries of
`cov_matrix` of the transposed activations; it is nonnegative, and zero
exactly when every off-diagonal covariance entry is zero. -/
theorem decov_criterion_offdiag_nonneg_iff {N F : ℕ} (A : Matrix (Fin N) (Fin F) ℚ)
    (hN : 2 ≤ N) :
    decov_criterion A = (∑ i, ∑ j, if i = j then 0 else (cov_matrix Aᵀ i j) ^ 2) ∧
    0 ≤ decov_criterion A ∧
    (decov_criterion A = 0 ↔ ∀ i j, i ≠ j → cov_matrix Aᵀ i j = 0) := by
  have hterm : ∀ i j : Fin F, (zeroDiag (cov_matrix Aᵀ) i j) ^ 2 =
      if i = j then (0 : ℚ) else (cov_matrix Aᵀ i j) ^ 2 := by
    intro i j
    unfold zeroDiag
    by_cases h : i = j <;> simp [h]
  have h1 : decov_criterion A =
      ∑ i, ∑ j, if i = j then (0 : ℚ) else (cov_matrix Aᵀ i j) ^ 2 := by
    unfold decov_criterion
    exact Finset.sum_congr rfl fun i _ => Finset.sum_congr rfl fun j _ => hterm i j
  have hnn : 0 ≤ decov_criterion A := by
    unfold decov_criterion
    exact Finset.sum_nonneg fun i _ => Finset.sum_nonneg fun j _ => sq_nonneg _
  refine ⟨h1, hnn, ?_⟩
  constructor
  · intro h0 i j hij
    unfold decov_criterion at h0
    have hi := (Finset.sum_eq_zero_iff_of_nonneg fun i _ =>
        Finset.sum_nonneg fun j _ => sq_nonneg _).mp h0 i (Finset.mem_univ i)
    have hj := (Finset.sum_eq_zero_iff_of_nonneg fun j _ => sq_nonneg _).mp hi j
      (Finset.mem_univ j)
    have hz := pow_eq_zero_iff two_ne_zero |>.mp hj
    unfold zeroDiag at hz
    rwa [if_neg hij] at hz
  · intro hall
    rw [h1]
    apply Finset.sum_eq_zero
    intro i _
    apply Finset.sum_eq_zero
    intro j _
    by_cases h : i = j
    · simp [h]
    · simp [h, hall i j h]

/-- Witness for C5 at `![![1, 2], ![3, 5]]`. -/
theorem decov_criterion_offdiag_nonneg_iff_witness :
    2 ≤ 2 ∧
    (decov_criterion (![![1, 2], ![3, 5]] : Matrix (Fin 2) (Fin 2) ℚ) =
        (∑ i, ∑ j, if i = j then 0
          else (cov_matrix (![![1, 2], ![3, 5]] : Matrix (Fin 2) (Fin 2) ℚ)ᵀ i j) ^ 2) ∧
      0 ≤ decov_criterion (![![1, 2], ![3, 5]] : Matrix (Fin 2) (Fin 2) ℚ) ∧
      (decov_criterion (![![1, 2], ![3, 5]] : Matrix (Fin 2) (Fin 2) ℚ) = 0 ↔
        ∀ i j, i ≠ j →
          cov_matrix (![![1, 2], ![3, 5]] : Matrix (Fin 2) (Fin 2) ℚ)ᵀ i j = 0)) :=
  ⟨by norm_num, decov_criterion_offdiag_nonneg_iff ![![1, 2], ![3, 5]] (by norm_num)⟩

theorem corr_matrix_sq_entry_nonneg {F N : ℕ} (X : Matrix (Fin F) (Fin N) ℚ)
    (eps : ℚ) (heps0 : 0 ≤ eps) (i j : Fin F) : 0 ≤ corr_matrix_sq X eps i j := by
  rw [corr_matrix_sq_apply]
  apply div_nonneg (sq_nonneg _)
  apply mul_nonneg (sq_nonneg _)
  exact mul_nonneg (add_nonneg (tvar_nonneg _ _) heps0)
    (add_nonneg (tvar_nonneg _ _) heps0)

theorem sum_sq_centered_row {F N : ℕ} (X : Matrix (Fin F) (Fin N) ℚ) (i : Fin F)
    (hc : ((N : ℚ) - 1) ≠ 0) :
    ∑ k, centered X i k ^ 2 = ((N : ℚ) - 1) * tvar (centered X) i := by
  unfold tvar
  simp only [rowMean_centered, sub_zero]
  rw [mul_comm, div_mul_cancel₀ _ hc]

theorem corr_matrix_sq_entry_le_one {F N : ℕ} (X : Matrix (Fin F) (Fin N) ℚ)
    (eps : ℚ) (hN : 2 ≤ N) (heps : 0 < eps) (i j : Fin F) :
    corr_matrix_sq X eps i j ≤ 1 := by
  rw [corr_matrix_sq_apply]
  have hc : (0 : ℚ) < (N : ℚ) - 1 := by
    have h2 : (2 : ℚ) ≤ (N : ℚ) := by exact_mod_cast hN
    linarith
  have hVi : 0 < tvar (centered X) i + eps :=
    add_pos_of_nonneg_of_pos (tvar_nonneg _ _) heps
  have hVj : 0 < tvar (centered X) j + eps :=
    add_pos_of_nonneg_of_pos (tvar_nonneg _ _) heps
  rw [div_le_one (by positivity)]
  have hCS := Finset.sum_mul_sq_le_sq_mul_sq Finset.univ
    (fun k => centered X i k) (fun k => centered X j k)
  have hi := sum_sq_centered_row X i hc.ne'
  have hj := sum_sq_centered_row X j hc.ne'
  have h1 : (∑ k, centered X i k * centered X j k) ^ 2 ≤
      (((N : ℚ) - 1) * tvar (centered X) i) * (((N : ℚ) - 1) * tvar (centered X) j) := by
    rw [← hi, ← hj]
    exact hCS
  have h3 : tvar (centered X) i * tvar (centered X) j ≤
      (tvar (centered X) i + eps) * (tvar (centered X) j + eps) := by
    nlinarith [mul_nonneg (tvar_nonneg (centered X) i) heps.le,
      mul_nonneg (tvar_nonneg (centered X) j) heps.le,
      mul_nonneg heps.le heps.le]
  calc (∑ k, centered X i k * centered X j k) ^ 2
      ≤ (((N : ℚ) - 1) * tvar (centered X) i) * (((N : ℚ) - 1) * tvar (centered X) j) := h1
    _ = ((N : ℚ) - 1) ^ 2 * (tvar (centered X) i * tvar (centered X) j) := by ring
    _ ≤ ((N : ℚ) - 1) ^ 2 *
        ((tvar (centered X) i + eps) * (tvar (centered X) j + eps)) :=
      mul_le_mul_of_nonneg_left h3 (sq_nonneg _)

theorem zeroDiag_sum_nonneg {F : ℕ} (M : Matrix (Fin F) (Fin F) ℚ)
    (h : ∀ i j, 0 ≤ M i j) : 0 ≤ ∑ i, ∑ j, zeroDiag M i j := by
  apply Finset.sum_nonneg
  intro i _
  apply Finset.sum_nonneg
  intro j _
  show 0 ≤ if i = j then 0 else M i j
  split
  · exact le_refl 0
  · exact h i j

/-- Claim C6: for sample length `N ≥ 2`, `eps > 0` and rows of non-zero variance,
every entry of `corr_matrix_sq` lies in `[0, 1]`; for `eps ≥ 0`,
`decorr_criterion` and `halfcorr_criterion` are nonnegative. -/
theorem corr_matrix_sq_bounds_loss_nonneg {F N : ℕ} (X : Matrix (Fin F) (Fin N) ℚ)
    (eps : ℚ) (hN : 2 ≤ N) (heps0 : 0 ≤ eps) :
    (0 < eps → (∀ i, specVariance (fun t => X i t) ≠ 0) →
      ∀ i j, 0 ≤ corr_matrix_sq X eps i j ∧ corr_matrix_sq X eps i j ≤ 1) ∧
    0 ≤ decorr_criterion X eps ∧
    0 ≤ halfcorr_criterion X eps := by
  refine ⟨fun heps hvar i j =>
    ⟨corr_matrix_sq_entry_nonneg X eps heps0 i j,
      corr_matrix_sq_entry_le_one X eps hN heps i j⟩, ?_, ?_⟩
  · unfold decorr_criterion
    exact zeroDiag_sum_nonneg _ (corr_matrix_sq_entry_nonneg X eps heps0)
  · unfold halfcorr_criterion
    exact zeroDiag_sum_nonneg _ (corr_matrix_sq_entry_nonneg (sliceFromHalf X) eps heps0)

/-- Witness for C6 at `![![0, 1]]`, `eps = 1`. -/
theorem corr_matrix_sq_bounds_loss_nonneg_witness :
    (2 ≤ 2 ∧ (0 : ℚ) ≤ 1) ∧
    ((0 < (1 : ℚ) →
      (∀ i, specVariance (fun t => (![![0, 1]] : Matrix (Fin 1) (Fin 2) ℚ) i t) ≠ 0) →
      ∀ i j, 0 ≤ corr_matrix_sq (![![0, 1]] : Matrix (Fin 1) (Fin 2) ℚ) 1 i j ∧
        corr_matrix_sq (![![0, 1]] : Matrix (Fin 1) (Fin 2) ℚ) 1 i j ≤ 1) ∧
    0 ≤ decorr_criterion (![![0, 1]] : Matrix (Fin 1) (Fin 2) ℚ) 1 ∧
    0 ≤ halfcorr_criterion (![![0, 1]] : Matrix (Fin 1) (Fin 2) ℚ) 1) :=
  ⟨⟨by norm_num, by norm_num⟩,
    corr_matrix_sq_bounds_loss_nonneg ![![0, 1]] 1 (by norm_num) (by norm_num)⟩

/-- Claim C7: `halfcorr_criterion` on the full activations equals
`decorr_criterion` on the activations restricted to the second half of the
last (feature) axis, from index `round(F/2)` on. -/
theorem halfcorr_restriction_consistency {R C : ℕ} (X : Matrix (Fin R) (Fin C) ℚ)
    (eps : ℚ) :
    halfcorr_criterion X eps = decorr_criterion (sliceFromHalf X) eps := rfl

theorem map_getD_range {α : Type} [Inhabited α] (l : List α) :
    (List.range l.length).map (fun i => l.getD i default) = l := by
  apply List.ext_getElem
  · simp
  · intro i h1 h2
    rw [List.getElem_map, List.getElem_range]
    exact List.getD_eq_getElem l default h2

theorem applyPerm_perm {α : Type} [Inhabited α] (p : List ℕ) (l : List α)
    (h : p.Perm (List.range l.length)) : (applyPerm p l).Perm l := by
  have h1 : (applyPerm p l).Perm ((List.range l.length).map fun i => l.getD i default) :=
    h.map _
  rwa [map_getD_range] at h1

/-- Claim C4, amended: whenever the data-selection step completes, an invalid
`target2_config` makes construction fail with the config error, so the caller
never receives a subset; but the failure is raised only after the
data-selection/copying step has executed, not before it. -/
theorem relabeledSubset_config_error {α : Type} [Inhabited α] (ds : BaseDataset α)
    (cs : SizeCfg) (ci : IndsCfg) (selPerm t2Perm : List ℕ) (dt : List α × List ℕ)
    (hsel : selectionStepE ds cs ci selPerm = Except.ok dt) :
    (relabeledSubset_init ds cs ci T2Cfg.invalid selPerm t2Perm).state =
      Except.error InitError.invalidTarget2Config ∧
    (relabeledSubset_init ds cs ci T2Cfg.invalid selPerm t2Perm).events =
      [InitEvent.copyData, InitEvent.raiseConfigError] := by
  unfold relabeledSubset_init
  rw [hsel]
  exact ⟨rfl, rfl⟩

/-- Witness for C4's amended theorem on a concrete two-item dataset. -/
theorem relabeledSubset_config_error_witness :
    selectionStepE (⟨[7, 8], [0, 1], [0, 1]⟩ : BaseDataset ℕ) (SizeCfg.size 1)
        (IndsCfg.inds [0, 1]) [0, 1] =
      Except.ok (selectionStep (⟨[7, 8], [0, 1], [0, 1]⟩ : BaseDataset ℕ)
        (SizeCfg.size 1) (IndsCfg.inds [0, 1]) [0, 1]) ∧
    ((relabeledSubset_init (⟨[7, 8], [0, 1], [0, 1]⟩ : BaseDataset ℕ) (SizeCfg.size 1)
        (IndsCfg.inds [0, 1]) T2Cfg.invalid [0, 1] []).state =
      Except.error InitError.invalidTarget2Config ∧
    (relabeledSubset_init (⟨[7, 8], [0, 1], [0, 1]⟩ : BaseDataset ℕ) (SizeCfg.size 1)
        (IndsCfg.inds [0, 1]) T2Cfg.invalid [0, 1] []).events =
      [InitEvent.copyData, InitEvent.raiseConfigError]) :=
  ⟨rfl,
    relabeledSubset_config_error ⟨[7, 8], [0, 1], [0, 1]⟩ (SizeCfg.size 1)
      (IndsCfg.inds [0, 1]) [0, 1] [] _ rfl⟩

/-- Claim C4, counterexample: with `target2_config` invalid (e.g. `"bogus"`)
and a selection that completes, the construction does raise the config error,
but the observable event order shows the data copy happening first — the
failure is not raised before data copying; and with an empty `class_inds`
list the construction raises the `torch.cat([])` `RuntimeError` instead of
the config error, so the claim also fails to hold for every selection
configuration. -/
theorem relabeledSubset_invalid_copy_first_cex :
    (relabeledSubset_init (⟨[7, 8], [0, 1], [0, 1]⟩ : BaseDataset ℕ) (SizeCfg.size 1)
        (IndsCfg.inds [0, 1]) T2Cfg.invalid [0, 1] []).events =
      [InitEvent.copyData, InitEvent.raiseConfigError] ∧
    (relabeledSubset_init (⟨[7, 8], [0, 1], [0, 1]⟩ : BaseDataset ℕ) (SizeCfg.size 1)
        (IndsCfg.inds [0, 1]) T2Cfg.invalid [0, 1] []).state =
      Except.error InitError.invalidTarget2Config ∧
    (relabeledSubset_init (⟨[7, 8], [0, 1], [0, 1]⟩ : BaseDataset ℕ) (SizeCfg.size 1)
        (IndsCfg.inds []) T2Cfg.invalid [] []).state =
      Except.error InitError.emptyCat :=
  ⟨rfl, rfl, rfl⟩

/-- Claim C10: when a secondary label exists and a `target_transform` is supplied,
`__getitem__` applies the transform to the secondary label as well: the
result is `(transformed image, f primary, f secondary)`. -/
theorem getitem_applies_target_transform {α : Type} [Inhabited α] (s : SubsetState α)
    (transform : Option (α → α)) (f : ℤ → ℤ) (idx : ℕ) (t2s : List ℤ)
    (h2 : s.targets2 = some t2s) :
    relabeledSubset_getitem s transform (some f) idx =
      ItemOut.triple
        (match transform with
          | some g => g (s.data.getD idx default)
          | Option.none => s.data.getD idx default)
        (f ((s.targets.getD idx 0 : ℕ) : ℤ))
        (f (t2s.getD idx 0)) := by
  unfold relabeledSubset_getitem
  rw [h2]

/-- Witness for C10 on a one-item subset with `f = (· + 1)`. -/
theorem getitem_applies_target_transform_witness :
    (⟨[5], [3], some [9]⟩ : SubsetState ℕ).targets2 = some [9] ∧
    relabeledSubset_getitem (⟨[5], [3], some [9]⟩ : SubsetState ℕ) Option.none
        (some fun t => t + 1) 0 = ItemOut.triple 5 4 10 :=
  ⟨rfl,
    (getitem_applies_target_transform (⟨[5], [3], some [9]⟩ : SubsetState ℕ) Option.none
      (fun t => t + 1) 0 [9] rfl).trans (by decide)⟩

theorem mem_whereEq {t : List ℕ} {c i : ℕ} (h : i ∈ whereEq t c) :
    i < t.length ∧ t.getD i 0 = c := by
  unfold whereEq at h
  rw [List.mem_filter, List.mem_range] at h
  obtain ⟨h1, h2⟩ := h
  have h3 : t.getD i (c + 1) = c := of_decide_eq_true h2
  refine ⟨h1, ?_⟩
  rw [List.getD_eq_getElem t 0 h1]
  rw [List.getD_eq_getElem t (c + 1) h1] at h3
  exact h3

theorem length_whereEq (t : List ℕ) (c : ℕ) : (whereEq t c).length = t.count c := by
  induction t using List.reverseRecOn with
  | nil => rfl
  | append_singleton t' a ih =>
    unfold whereEq at ih ⊢
    rw [List.length_append, List.length_singleton, List.range_succ, List.filter_append,
      List.length_append, List.count_append]
    have hcong : List.filter (fun i => decide ((t' ++ [a]).getD i (c + 1) = c))
        (List.range t'.length) =
        List.filter (fun i => decide (t'.getD i (c + 1) = c)) (List.range t'.length) := by
      apply List.filter_congr
      intro i hi
      rw [List.mem_range] at hi
      rw [List.getD_append t' [a] (c + 1) i hi]
    rw [hcong, ih]
    have hgd : (t' ++ [a]).getD t'.length (c + 1) = a := by
      rw [List.getD_append_right t' [a] (c + 1) t'.length (le_refl _), Nat.sub_self]
      rfl
    by_cases hac : a = c
    · have hfil : List.filter (fun i => decide ((t' ++ [a]).getD i (c + 1) = c))
          [t'.length] = [t'.length] := by
        simp [hgd, hac]
      rw [hfil]
      simp [hac, List.count_singleton]
    · have hfil : List.filter (fun i => decide ((t' ++ [a]).getD i (c + 1) = c))
          [t'.length] = [] := by
        simp [hgd, hac]
      rw [hfil]
      simp [List.count_singleton, hac]

theorem mem_take_filter_range (p : ℕ → Bool) (k i n : ℕ) :
    i ∈ ((List.range n).filter p).take k ↔
      (i < n ∧ p i = true ∧ ((List.range i).filter p).length < k) := by
  induction n with
  | zero => simp
  | succ n ih =>
    rw [List.range_succ, List.filter_append, List.take_append_eq_append_take,
      List.mem_append]
    by_cases hin : i < n
    · constructor
      · intro h
        rcases h with h | h
        · obtain ⟨h1, h2, h3⟩ := ih.mp h
          exact ⟨Nat.lt_succ_of_lt h1, h2, h3⟩
        · exfalso
          have hmem := List.take_subset _ _ h
          have hmem2 := (List.mem_filter.mp hmem).1
          rw [List.mem_singleton] at hmem2
          omega
      · intro h
        obtain ⟨h1, h2, h3⟩ := h
        exact Or.inl (ih.mpr ⟨hin, h2, h3⟩)
    · by_cases hieq : i = n
      · subst hieq
        constructor
        · intro h
          rcases h with h | h
          · have hmem := List.take_subset _ _ h
            have hlt := (List.mem_filter.mp hmem).1
            rw [List.mem_range] at hlt
            omega
          · have hmem := List.take_subset _ _ h
            have hf := List.mem_filter.mp hmem
            refine ⟨Nat.lt_succ_self _, hf.2, ?_⟩
            by_contra hge
            push_neg at hge
            rw [Nat.sub_eq_zero_of_le hge, List.take_zero] at h
            exact absurd h (List.not_mem_nil _)
        · intro h
          obtain ⟨h1, h2, h3⟩ := h
          refine Or.inr ?_
          have hfil : List.filter p [i] = [i] := by
            simp [h2]
          rw [hfil]
          obtain ⟨m, hm⟩ : ∃ m, k - ((List.range i).filter p).length = m + 1 :=
            ⟨k - ((List.range i).filter p).length - 1, by omega⟩
          rw [hm, List.take_succ_cons]
          exact List.mem_cons_self _ _
      · constructor
        · intro h
          rcases h with h | h
          · have hlt := (List.mem_filter.mp (List.take_subset _ _ h)).1
            rw [List.mem_range] at hlt
            omega
          · have heq := (List.mem_filter.mp (List.take_subset _ _ h)).1
            rw [List.mem_singleton] at heq
            omega
        · intro h
          obtain ⟨h1, _, _⟩ := h
          omega

theorem count_map_targets_take (t : List ℕ) (c cp k : ℕ) :
    ((((whereEq t c).take k).map fun i => t.getD i 0).count cp) =
      if cp = c then min k (t.count c) else 0 := by
  by_cases h : cp = c
  · subst h
    rw [if_pos rfl]
    rw [List.count_eq_length.mpr ?_, List.length_map, List.length_take, length_whereEq]
    intro b hb
    rcases List.mem_map.mp hb with ⟨i, hi, hfi⟩
    rw [← hfi]
    exact ((mem_whereEq (List.take_subset _ _ hi)).2).symm
  · rw [if_neg h]
    rw [List.count_eq_zero.mpr ?_]
    intro hmem
    rcases List.mem_map.mp hmem with ⟨i, hi, hfi⟩
    have := (mem_whereEq (List.take_subset _ _ hi)).2
    rw [hfi] at this
    exact h this

/-- Claim C8: with cap `class_size = k` and classes `{c1, c2}`, the subset holds
exactly `min k available` items of each selected class, none of any other
class; the raw index list keeps, per class, exactly the indices with fewer
than `k` earlier same-class indices (the first `k` in base order); and the
final order is one global permutation of the concatenated per-class lists. -/
theorem relabeledSubset_class_cap {α : Type} [Inhabited α] (ds : BaseDataset α)
    (c1 c2 k : ℕ) (selPerm : List ℕ) (hk : 0 < k) (hne : c1 ≠ c2)
    (hperm : selPerm.Perm (List.range
      (rawSubsetInds ds (SizeCfg.size k) (IndsCfg.inds [c1, c2])).length)) :
    ((selectionStep ds (SizeCfg.size k) (IndsCfg.inds [c1, c2]) selPerm).2.count c1 =
        min k (ds.targets.count c1)) ∧
    ((selectionStep ds (SizeCfg.size k) (IndsCfg.inds [c1, c2]) selPerm).2.count c2 =
        min k (ds.targets.count c2)) ∧
    (∀ c, c ≠ c1 → c ≠ c2 →
      (selectionStep ds (SizeCfg.size k) (IndsCfg.inds [c1, c2]) selPerm).2.count c = 0) ∧
    (∀ i, i ∈ rawSubsetInds ds (SizeCfg.size k) (IndsCfg.inds [c1, c2]) ↔
      ((i < ds.targets.length ∧ ds.targets.getD i (c1 + 1) = c1 ∧
          ((List.range i).filter fun j =>
            decide (ds.targets.getD j (c1 + 1) = c1)).length < k) ∨
       (i < ds.targets.length ∧ ds.targets.getD i (c2 + 1) = c2 ∧
          ((List.range i).filter fun j =>
            decide (ds.targets.getD j (c2 + 1) = c2)).length < k))) ∧
    (applyPerm selPerm (rawSubsetInds ds (SizeCfg.size k) (IndsCfg.inds [c1, c2]))).Perm
      (rawSubsetInds ds (SizeCfg.size k) (IndsCfg.inds [c1, c2])) := by
  have hraw : rawSubsetInds ds (SizeCfg.size k) (IndsCfg.inds [c1, c2]) =
      (whereEq ds.targets c1).take k ++ (whereEq ds.targets c2).take k := by
    simp [rawSubsetInds, resolveClassInds, takeCfg]
  have hsnd : (selectionStep ds (SizeCfg.size k) (IndsCfg.inds [c1, c2]) selPerm).2 =
      (applyPerm selPerm (rawSubsetInds ds (SizeCfg.size k) (IndsCfg.inds [c1, c2]))).map
        (fun i => ds.targets.getD i 0) := rfl
  have hP : (applyPerm selPerm
      (rawSubsetInds ds (SizeCfg.size k) (IndsCfg.inds [c1, c2]))).Perm
      (rawSubsetInds ds (SizeCfg.size k) (IndsCfg.inds [c1, c2])) :=
    applyPerm_perm _ _ hperm
  have hcount : ∀ cp,
      (selectionStep ds (SizeCfg.size k) (IndsCfg.inds [c1, c2]) selPerm).2.count cp =
      ((((whereEq ds.targets c1).take k).map fun i => ds.targets.getD i 0).count cp) +
      ((((whereEq ds.targets c2).take k).map fun i => ds.targets.getD i 0).count cp) := by
    intro cp
    rw [hsnd, (hP.map fun i => ds.targets.getD i 0).count_eq cp, hraw,
      List.map_append, List.count_append]
  refine ⟨?_, ?_, ?_, ?_, hP⟩
  · rw [hcount, count_map_targets_take, count_map_targets_take,
      if_pos rfl, if_neg hne, add_zero]
  · rw [hcount, count_map_targets_take, count_map_targets_take,
      if_neg fun h => hne h.symm, if_pos rfl, zero_add]
  · intro c hc1 hc2
    rw [hcount, count_map_targets_take, count_map_targets_take,
      if_neg hc1, if_neg hc2, add_zero]
  · intro i
    rw [hraw, List.mem_append]
    unfold whereEq
    rw [mem_take_filter_range, mem_take_filter_range]
    simp only [decide_eq_true_eq]

/-- Witness for C8 on targets `[0, 1, 0, 1, 0, 2]` with `k = 2`, classes
`{0, 1}` and the identity permutation. -/
theorem relabeledSubset_class_cap_witness :
    (0 < 2 ∧ (0 : ℕ) ≠ 1) ∧
    (((selectionStep (⟨[10, 20, 30, 40, 50, 60], [0, 1, 0, 1, 0, 2], [0, 1, 2]⟩ :
          BaseDataset ℕ) (SizeCfg.size 2) (IndsCfg.inds [0, 1]) (List.range 4)).2.count 0 =
        min 2 (([0, 1, 0, 1, 0, 2] : List ℕ).count 0)) ∧
    ((selectionStep (⟨[10, 20, 30, 40, 50, 60], [0, 1, 0, 1, 0, 2], [0, 1, 2]⟩ :
          BaseDataset ℕ) (SizeCfg.size 2) (IndsCfg.inds [0, 1]) (List.range 4)).2.count 1 =
        min 2 (([0, 1, 0, 1, 0, 2] : List ℕ).count 1)) ∧
    (∀ c, c ≠ 0 → c ≠ 1 →
      ((selectionStep (⟨[10, 20, 30, 40, 50, 60], [0, 1, 0, 1, 0, 2], [0, 1, 2]⟩ :
          BaseDataset ℕ) (SizeCfg.size 2) (IndsCfg.inds [0, 1]) (List.range 4)).2.count c = 0)) ∧
    (∀ i, i ∈ rawSubsetInds (⟨[10, 20, 30, 40, 50, 60], [0, 1, 0, 1, 0, 2], [0, 1, 2]⟩ :
          BaseDataset ℕ) (SizeCfg.size 2) (IndsCfg.inds [0, 1]) ↔
      ((i < ([0, 1, 0, 1, 0, 2] : List ℕ).length ∧
          ([0, 1, 0, 1, 0, 2] : List ℕ).getD i (0 + 1) = 0 ∧
          ((List.range i).filter fun j =>
            decide (([0, 1, 0, 1, 0, 2] : List ℕ).getD j (0 + 1) = 0)).length < 2) ∨
       (i < ([0, 1, 0, 1, 0, 2] : List ℕ).length ∧
          ([0, 1, 0, 1, 0, 2] : List ℕ).getD i (1 + 1) = 1 ∧
          ((List.range i).filter fun j =>
            decide (([0, 1, 0, 1, 0, 2] : List ℕ).getD j (1 + 1) = 1)).length < 2))) ∧
    (applyPerm (List.range 4)
        (rawSubsetInds (⟨[10, 20, 30, 40, 50, 60], [0, 1, 0, 1, 0, 2], [0, 1, 2]⟩ :
          BaseDataset ℕ) (SizeCfg.size 2) (IndsCfg.inds [0, 1]))).Perm
      (rawSubsetInds (⟨[10, 20, 30, 40, 50, 60], [0, 1, 0, 1, 0, 2], [0, 1, 2]⟩ :
          BaseDataset ℕ) (SizeCfg.size 2) (IndsCfg.inds [0, 1]))) :=
  ⟨⟨by decide, by decide⟩,
    relabeledSubset_class_cap ⟨[10, 20, 30, 40, 50, 60], [0, 1, 0, 1, 0, 2], [0, 1, 2]⟩
      0 1 2 (List.range 4) (by decide) (by decide) (by decide)⟩

theorem count_mod_range (K M v : ℕ) (hK : 0 < K) (hv : v < K) :
    (((List.range M).map fun i => i % K).count v) =
      M / K + if v < M % K then 1 else 0 := by
  induction M with
  | zero => simp
  | succ M ih =>
    rw [List.range_succ, List.map_append, List.count_append, ih]
    have hr : M % K < K := Nat.mod_lt M hK
    have hsingle : ((([M] : List ℕ).map fun i => i % K).count v) =
        if M % K = v then 1 else 0 := by
      simp only [List.map_cons, List.map_nil, List.count_singleton]
      by_cases hmv : M % K = v <;> simp [hmv]
    rw [hsingle]
    by_cases hlast : M % K = K - 1
    · have hM1 : M + 1 = K * (M / K + 1) := by
        have hdm := Nat.div_add_mod M K
        rw [Nat.mul_succ]
        omega
      have h1 : (M + 1) % K = 0 := by rw [hM1, Nat.mul_mod_right]
      have h2 : (M + 1) / K = M / K + 1 := by rw [hM1, Nat.mul_div_cancel_left _ hK]
      rw [h1, h2]
      split_ifs <;> omega
    · have hlt : M % K + 1 < K := by omega
      have hM1 : M + 1 = K * (M / K) + (M % K + 1) := by
        have hdm := Nat.div_add_mod M K
        omega
      have h1 : (M + 1) % K = M % K + 1 := by
        rw [hM1, Nat.mul_add_mod, Nat.mod_eq_of_lt hlt]
      have h2 : (M + 1) / K = M / K := by
        rw [hM1, Nat.mul_add_div hK, Nat.div_eq_of_lt hlt, add_zero]
      rw [h1, h2]
      split_ifs <;> omega

/-- Claim C9: with `target2_config` a positive integer `K`, the secondary labels
take values in `{0, ..., K-1}` only, each value occurring `⌊M/K⌋` or
`⌈M/K⌉` times (exactly `M / K + 1` only when `K` does not divide `M`). -/
theorem relabeledSubset_int_labels_balanced (targets : List ℕ) (K : ℕ)
    (t2Perm : List ℕ) (hK : 0 < K)
    (hperm : t2Perm.Perm (List.range targets.length)) (l : List ℤ)
    (hl : target2Step targets (T2Cfg.int (K : ℤ)) t2Perm = Except.ok (some l)) :
    (∀ x ∈ l, 0 ≤ x ∧ x < (K : ℤ)) ∧
    ∀ v : ℕ, v < K →
      l.count ((v : ℕ) : ℤ) =
        targets.length / K + (if v < targets.length % K then 1 else 0) ∧
      (l.count ((v : ℕ) : ℤ) = targets.length / K ∨
        (¬ K ∣ targets.length ∧ l.count ((v : ℕ) : ℤ) = targets.length / K + 1)) := by
  have hl' : l = applyPerm t2Perm
      ((List.range targets.length).map fun (i : ℕ) => Int.fmod (i : ℤ) (K : ℤ)) := by
    have hKz : ((K : ℤ)) ≠ 0 := Int.natCast_ne_zero.mpr hK.ne'
    simp only [target2Step] at hl
    rw [if_neg hKz] at hl
    simp only [Except.ok.injEq, Option.some.injEq] at hl
    exact hl.symm
  have hcast : (List.range targets.length).map (fun (i : ℕ) => Int.fmod (i : ℤ) (K : ℤ)) =
      ((List.range targets.length).map fun i => i % K).map (fun (n : ℕ) => (n : ℤ)) := by
    rw [List.map_map]
    apply List.map_congr_left
    intro i hi
    show Int.fmod (i : ℤ) (K : ℤ) = ((i % K : ℕ) : ℤ)
    exact_mod_cast (Int.ofNat_fmod i K).symm
  have hP : l.Perm ((List.range targets.length).map fun (i : ℕ) => Int.fmod (i : ℤ) (K : ℤ)) := by
    rw [hl']
    apply applyPerm_perm
    simpa using hperm
  constructor
  · intro x hx
    have hx2 := hP.mem_iff.mp hx
    rcases List.mem_map.mp hx2 with ⟨i, hi, hfi⟩
    have hx3 : x = ((i % K : ℕ) : ℤ) := by
      rw [← hfi]
      exact_mod_cast (Int.ofNat_fmod i K).symm
    rw [hx3]
    constructor
    · exact Int.ofNat_nonneg _
    · exact_mod_cast Nat.mod_lt i hK
  · intro v hv
    have hcnt : l.count ((v : ℕ) : ℤ) =
        targets.length / K + ite (v < targets.length % K) 1 0 := by
      rw [hP.count_eq, hcast,
        List.count_map_of_injective _ _ (fun a b h => by exact_mod_cast h) v,
        count_mod_range K targets.length v hK hv]
    refine ⟨hcnt, ?_⟩
    by_cases hvr : v < targets.length % K
    · right
      constructor
      · rw [Nat.dvd_iff_mod_eq_zero]
        omega
      · rw [hcnt, if_pos hvr]
    · left
      rw [hcnt, if_neg hvr, add_zero]

/-- Witness for C9 at `K = 4`, `M = 100`: secondary label `2` occurs exactly
`25` times. -/
theorem relabeledSubset_int_labels_balanced_witness :
    (applyPerm (List.range 100)
        ((List.range (List.replicate 100 (0 : ℕ)).length).map fun i =>
          Int.fmod (i : ℤ) ((4 : ℕ) : ℤ))).count (((2 : ℕ) : ℕ) : ℤ) = 25 := by
  have h := relabeledSubset_int_labels_balanced (List.replicate 100 (0 : ℕ)) 4
    (List.range 100) (by decide) (List.Perm.refl _) _ rfl
  exact ((h.2 2 (by decide)).1).trans (by decide)
